import Mathlib

/-!
Verification development for the CfRenew repository (SudoMds/CfRenew).

The repository is a Cloudflare endpoint scanner.  Its core file
`Cfsc.py` expands address ranges (`select`), probes each address
against a speed-test worker (`check`) under a shared quota counter
(`COUNT`), and appends accepted addresses to `good_ips.txt`.
`dupcf2.py` is a proxy speed tester (`measure_download_speed`,
`measure_upload_speed`, `check_proxy`, `test_proxies`).

This file gives a shallow embedding of those functions and proves, or
refutes, the specification's claims about them.
-/

namespace CfRenew

/-! ## Quota / probe scan model (`Cfsc.py`, `check` lines 49-73)

The asyncio program runs many `check(ip)` coroutines concurrently.
Each coroutine, in order:

1. reads the global `COUNT`; if `COUNT <= 0` it executes the branch
   `f.close(); os._exit(1)` (line 53-54).  `f` is a local variable of
   `check` (it is assigned only at line 70), so `f.close()` raises
   `UnboundLocalError` which propagates through `asyncio.gather` and
   aborts the whole run; the intended `os._exit(1)` also terminates
   the whole process.  Either way the run stops: we model both as the
   `crashed` flag, after which no step has any effect;
2. otherwise awaits an HTTP POST (a suspension point where other
   coroutines run); a non-200 status or an exception makes the
   coroutine return with no effect;
3. on success executes `COUNT -= 1` and then appends the address to
   `good_ips.txt`.  The decrement runs atomically between awaits and
   the append follows it unconditionally, so both are one transition.

A schedule is a list of actions naming which coroutine performs its
next phase; actions that do not match the coroutine's current phase
are no-ops (such a schedule simply never happens). -/

/-- Phase of one `check(ip)` coroutine. -/
inductive TaskState where
  | notStarted
  | inFlight
  | failed
  | recorded
deriving DecidableEq, Repr, BEq

/-- Global state of the scan: the shared `COUNT`, the phase of every
probe coroutine, and whether the run has aborted (the `COUNT <= 0`
branch of `check`: `UnboundLocalError` / `os._exit(1)`). -/
structure ScanState where
  count : Int
  tasks : List TaskState
  crashed : Bool
deriving DecidableEq, Repr

/-- One scheduling action: coroutine `i` runs its gate (`start`), or
its awaited HTTP request completes unsuccessfully (`fail`) or
successfully (`succeed`). -/
inductive Action where
  | start (i : Nat)
  | fail (i : Nat)
  | succeed (i : Nat)
deriving DecidableEq, Repr

/-- One step of the interleaving semantics of `check`.  After a crash
nothing further executes. -/
def scanStep (s : ScanState) (a : Action) : ScanState :=
  if s.crashed then s else
  match a with
  | .start i =>
    match s.tasks[i]? with
    | some .notStarted =>
      if s.count ≤ 0 then
        { s with crashed := true }
      else
        { s with tasks := s.tasks.set i .inFlight }
    | _ => s
  | .fail i =>
    match s.tasks[i]? with
    | some .inFlight => { s with tasks := s.tasks.set i .failed }
    | _ => s
  | .succeed i =>
    match s.tasks[i]? with
    | some .inFlight =>
      { count := s.count - 1, tasks := s.tasks.set i .recorded, crashed := s.crashed }
    | _ => s

/-- Run a whole schedule. -/
def runScan (acts : List Action) (s : ScanState) : ScanState :=
  acts.foldl scanStep s

/-- All states visited while running a schedule (initial state included). -/
def scanTrace (acts : List Action) (s : ScanState) : List ScanState :=
  List.scanl scanStep s acts

/-- Initial state: `COUNT = q` (loaded from the config, positive), `n`
probe coroutines not yet started, run alive. -/
def initScan (q : Int) (n : Nat) : ScanState :=
  ⟨q, List.replicate n .notStarted, false⟩

/-- Number of endpoints recorded in `good_ips.txt`. -/
def recordedCount (s : ScanState) : Nat :=
  s.tasks.countP (fun t => decide (t = TaskState.recorded))

/-- Number of probes past the gate whose HTTP request is pending. -/
def inFlightCount (s : ScanState) : Nat :=
  s.tasks.countP (fun t => decide (t = TaskState.inFlight))

/-- A state from which no schedule makes any further step: the process
has exited / the exception has propagated. -/
def Stuck (s : ScanState) : Prop :=
  ∀ acts : List Action, runScan acts s = s

/-! ## Range expander (`Cfsc.py`, `select` lines 75-88)

`select(ips)` calls `ipaddress.ip_network(ips)` — with no surrounding
`try` — and iterates the resulting network, dispatching every address
(in iteration order) to `check` in batches of `NUM_IPS`.

Strings are modelled as `List Char` (Lean's `String` primitives do not
reduce in the kernel).  `ip_network` is embedded for its IPv4
dotted-quad inputs, the only form the repository feeds it: a dotted
quad with decimal octets `0..255` (no leading zeros), an optional
`/p` with a decimal `p ≤ 32`, and — `strict=True` being the default —
all host bits zero; anything else raises `ValueError`, modelled as
`RangeErr.invalidRange`. -/

/-- Decimal value of a digit string. -/
def digitsToNat (s : List Char) : Nat :=
  s.foldl (fun n c => n * 10 + (c.toNat - 48)) 0

/-- Split a character list on a separator character. -/
def splitOnChar (sep : Char) : List Char → List (List Char)
  | [] => [[]]
  | c :: rest =>
    let r := splitOnChar sep rest
    if c = sep then [] :: r
    else
      match r with
      | [] => [[c]]
      | h :: t => (c :: h) :: t

/-- One dotted-quad octet: 1-3 decimal digits, no leading zero, value
at most 255. -/
def parseOctet (s : List Char) : Option Nat :=
  if s ≠ [] ∧ s.length ≤ 3 ∧ s.all Char.isDigit = true ∧ (s.length = 1 ∨ s.head? ≠ some '0') then
    if digitsToNat s ≤ 255 then some (digitsToNat s) else none
  else none

/-- The four dot-separated fields of a dotted quad, combined into the
32-bit numeric address value. -/
def parseQuad : List (List Char) → Option Nat
  | [a, b, c, d] =>
    (parseOctet a).bind fun va =>
    (parseOctet b).bind fun vb =>
    (parseOctet c).bind fun vc =>
    (parseOctet d).bind fun vd =>
    some (((va * 256 + vb) * 256 + vc) * 256 + vd)
  | _ => none

/-- A dotted-quad IPv4 address, as its 32-bit numeric value. -/
def parseIPv4 (s : List Char) : Option Nat :=
  parseQuad (splitOnChar '.' s)

/-- A prefix length: decimal digits, value at most 32. -/
def parsePrefixLen (s : List Char) : Option Nat :=
  if s ≠ [] ∧ s.all Char.isDigit = true then
    if digitsToNat s ≤ 32 then some (digitsToNat s) else none
  else none

deriving instance DecidableEq for Except

/-- An IPv4 network: numeric base address and prefix length. -/
structure Network where
  base : Nat
  plen : Nat
deriving DecidableEq, Repr

/-- The `ValueError` raised by `ipaddress.ip_network` on input that
does not parse as an address or CIDR block (the spec's `InvalidRange`). -/
inductive RangeErr where
  | invalidRange
deriving DecidableEq, Repr

/-- The slash-separated parts of a network specification: a bare
address is a `/32` network; `addr/p` requires the host bits to be zero
(`strict=True` is the default). -/
def parseNetworkParts : List (List Char) → Except RangeErr Network
  | [addr] =>
    match parseIPv4 addr with
    | some b => .ok ⟨b, 32⟩
    | none => .error .invalidRange
  | [addr, pl] =>
    match parseIPv4 addr, parsePrefixLen pl with
    | some b, some p =>
      if b % 2 ^ (32 - p) = 0 then .ok ⟨b, p⟩ else .error .invalidRange
    | _, _ => .error .invalidRange
  | _ => .error .invalidRange

/-- `ipaddress.ip_network(spec)` on IPv4 input. -/
def parseNetwork (spec : List Char) : Except RangeErr Network :=
  parseNetworkParts (splitOnChar '/' spec)

/-- Number of addresses in the network. -/
def Network.size (n : Network) : Nat := 2 ^ (32 - n.plen)

/-- Iterating an `IPv4Network` yields every address of the network
(network and broadcast addresses included), in ascending order. -/
def Network.enumerate (n : Network) : List Nat :=
  (List.range n.size).map (n.base + ·)

/-- Address `a` belongs to the network: it is a 32-bit address whose
prefix bits agree with the network's. -/
def Network.contains (n : Network) (a : Nat) : Prop :=
  a < 2 ^ 32 ∧ a / n.size = n.base / n.size

/-- `select` (lines 75-88): parse the range — an uncaught `ValueError`
from `ipaddress.ip_network` propagates out of `select` — then iterate
the network's addresses in order, dispatching them to `check` in
batches.  The result is the ordered list of dispatched addresses. -/
def select (spec : List Char) : Except RangeErr (List Nat) :=
  (parseNetwork spec).map Network.enumerate

/-- `run` (lines 150-156) hands every line of `ips.txt` to `select`
via `asyncio.gather`; an exception raised by any `select` propagates
through `gather` and `asyncio.run` and aborts the run, leaving later
lines unprocessed. -/
def runRanges : List (List Char) → Except RangeErr (List (List Nat))
  | [] => .ok []
  | spec :: rest =>
    match select spec with
    | .error e => .error e
    | .ok addrs =>
      match runRanges rest with
      | .error e => .error e
      | .ok out => .ok (addrs :: out)

/-! ## Target resolver (`Cfsc.py`, `get_working_worker` lines 90-102)

For each candidate URL (stripped), the code issues
`GET https://{url}`; it returns the stripped URL as soon as a response
arrives with a status other than 429; an exception is logged and the
loop continues; `None` is returned when the list is exhausted. -/

/-- Outcome of the liveness GET `https://{url}`: a response status
code, or a raised network error. -/
inductive LivenessResult where
  | status (code : Nat)
  | netError
deriving DecidableEq, Repr

/-- Python `str.strip()`: drop leading and trailing whitespace. -/
def stripChars (s : List Char) : List Char :=
  ((s.dropWhile Char.isWhitespace).reverse.dropWhile Char.isWhitespace).reverse

/-- `get_working_worker(speed_urls)` as a function of the network's
response to each candidate. -/
def get_working_worker (liveness : List Char → LivenessResult) :
    List (List Char) → Option (List Char)
  | [] => none
  | url :: rest =>
    let u := stripChars url
    match liveness u with
    | .status code =>
      if code ≠ 429 then some u else get_working_worker liveness rest
    | .netError => get_working_worker liveness rest

/-- A candidate is accepted when its liveness check neither raised a
network error nor returned HTTP 429. -/
def acceptsWorker : LivenessResult → Bool
  | .status code => code ≠ 429
  | .netError => false

/-- Candidate hosts of the spec's scenario. -/
def aExample : List Char := "a.example".toList

def bExample : List Char := "b.example".toList

/-- The scenario network: `a.example` answers 429, `b.example`
answers 200. -/
def scenarioLiveness (u : List Char) : LivenessResult :=
  if u = aExample then .status 429
  else if u = bExample then .status 200
  else .netError

/-! ## Throughput measurement (`dupcf2.py`, lines 27-84) -/

/-- Python `round(x, 2)`: round to two decimal places. -/
def round2 (q : ℚ) : ℚ := (round (q * 100) : ℤ) / 100

/-- The download chunk loop (lines 46-49): add each chunk's length,
breaking once `size` bytes have been accumulated. -/
def downloadLoop (size : Nat) : List Nat → Nat → Nat
  | [], acc => acc
  | c :: rest, acc =>
    if acc + c ≥ size then acc + c else downloadLoop size rest (acc + c)

/-- `measure_download_speed` (lines 39-53) after the response arrived:
a non-200 status reports 0.0; otherwise the speed is computed from the
bytes accumulated by the chunk loop and the elapsed wall-clock
`duration`, `(downloaded * 8) / (duration * 1_000_000)`, rounded to
two decimals. -/
def measure_download_speed (status : Nat) (chunks : List Nat) (size : Nat)
    (duration : ℚ) : ℚ :=
  if status ≠ 200 then 0
  else round2 ((downloadLoop size chunks 0 * 8 : ℚ) / (duration * 1000000))

/-- `measure_upload_speed` (lines 58-84): a non-200 status reports
0.0; otherwise `(size * 8) / (duration * 1_000_000)`, rounded to two
decimals. -/
def measure_upload_speed (status : Nat) (size : Nat) (duration : ℚ) : ℚ :=
  if status ≠ 200 then 0
  else round2 ((size * 8 : ℚ) / (duration * 1000000))

/-- The spec's formula, written from its words: `(bytes_transferred *
8) / (elapsed_seconds * 1_000_000)` megabits/second, rounded to two
decimals. -/
def specSpeedMbps (bytesTransferred : Nat) (elapsedSeconds : ℚ) : ℚ :=
  round2 ((bytesTransferred * 8) / (elapsedSeconds * 1000000))

/-! ## Module load of `Cfsc.py` (claim C8) -/

/-- Python errors arising in the embedded fragments. -/
inductive PyErr where
  | nameError (n : String)
deriving DecidableEq, Repr

/-- Names bound at `Cfsc.py` module top level before the
`class fronting` body executes: the imports of lines 1-9 and the
module-level constants of lines 12-22. -/
def cfscNamesBeforeFronting : List String :=
  ["os", "json", "asyncio", "logging", "sys", "ClientSession", "ClientTimeout",
   "TCPConnector", "ipaddress", "aiofiles", "requests",
   "CONFIG_FILE", "THREADS", "TIMEOUT", "SIZE", "SECURE", "NUM_IPS", "COUNT",
   "SPEED_DOMAIN", "cloud_ips"]

/-- Names evaluated while the `class fronting` body executes: default
parameter expressions are evaluated at definition time, and
`fronting.resolve` (line 28) has the default `family=socket.AF_INET`. -/
def frontingDefTimeNames : List String := ["socket"]

/-- Importing `Cfsc.py` runs the module top level; executing the
`class fronting` body defines `resolve`, which evaluates its default
arguments then and there; the first name among them that is not bound
in the module raises `NameError`. -/
def loadCfsc : Except PyErr Unit :=
  match frontingDefTimeNames.find? (fun n => !(cfscNamesBeforeFronting.contains n)) with
  | some n => .error (.nameError n)
  | none => .ok ()

/-! ## The quota-exhausted branch of `check` (claim C9) -/

/-- The straight-line statements of the `COUNT <= 0` branch of `check`
(lines 53-54). -/
inductive GateStmt where
  | callCloseLocal (n : String)
  | exitProcess (code : Nat)
deriving DecidableEq, Repr

/-- How executing the branch ends. -/
inductive GateResult where
  | exited (code : Nat)
  | raisedUnboundLocal (n : String)
  | fellThrough
deriving DecidableEq, Repr

/-- Execute the statements in order: `f.close()` evaluates the local
name `f`, and referencing a local that is not yet bound raises
`UnboundLocalError` (a subclass of `NameError`); `os._exit(code)`
terminates the process immediately. -/
def execGate (boundLocals : List String) : List GateStmt → GateResult
  | [] => .fellThrough
  | .callCloseLocal n :: rest =>
    if boundLocals.contains n then execGate boundLocals rest
    else .raisedUnboundLocal n
  | .exitProcess code :: _ => .exited code

/-- Lines 53-54: `f.close()` then `os._exit(1)`. -/
def quotaExhaustedBody : List GateStmt :=
  [.callCloseLocal "f", .exitProcess 1]

/-- Locals of `check` bound when line 52 runs: only the parameter
`ip`.  `f` is a local of `check` (assigned by the `async with` at line
70) and is therefore unbound at line 53. -/
def checkLocalsAtGate : List String := ["ip"]

/-- The gate of `check` (lines 52-54): when `COUNT <= 0` the branch
body executes; otherwise the probe proceeds (`none`). -/
def checkGate (count : Int) : Option GateResult :=
  if count ≤ 0 then some (execGate checkLocalsAtGate quotaExhaustedBody) else none

/-! ## Proxy tester (`dupcf2.py`, `check_proxy` / `test_proxies`) -/

/-- One row of the proxy report: IP, port, download and upload speed
in Mbps. -/
structure ProxyResult where
  ip : List Char
  port : List Char
  download : ℚ
  upload : ℚ
deriving DecidableEq, Repr

/-- Per-proxy network environment: whether the connectivity GET to
google.com came back with status 200 (and without exception), and the
two measured speeds. -/
structure ProxyEnv where
  connectOk : Bool
  download : ℚ
  upload : ℚ

/-- `check_proxy` (lines 86-124): split `ip:port`; a failed
connectivity check yields `(ip, port, 0.0, 0.0)`; otherwise the
measured download and upload speeds.  The unpacking
`ip, port = proxy.split(':')` sits before the `try` and raises for an
input without exactly one colon; that path is `none`. -/
def check_proxy (env : ProxyEnv) (proxy : List Char) : Option ProxyResult :=
  match splitOnChar ':' proxy with
  | [ip, port] =>
    some (if env.connectOk then ⟨ip, port, env.download, env.upload⟩ else ⟨ip, port, 0, 0⟩)
  | _ => none

/-- `test_proxies` (lines 126-151): every proxy runs `sem_check`,
which appends its `check_proxy` result to `results` exactly when the
download or the upload speed is strictly positive.  The list is
modelled in submission order; the semaphore limits concurrency and can
permute completion order but not the set of rows. -/
def test_proxies (env : List Char → ProxyEnv) :
    List (List Char) → Option (List ProxyResult)
  | [] => some []
  | proxy :: rest =>
    match check_proxy (env proxy) proxy, test_proxies env rest with
    | some r, some out =>
      some (if 0 < r.download ∨ 0 < r.upload then r :: out else out)
    | _, _ => none

/-! ### Basic lemmas about the scan model -/

theorem countP_set_add {α : Type} (p : α → Bool) :
    ∀ (l : List α) (i : Nat) (a b : α), l[i]? = some b →
      (l.set i a).countP p + (if p b then 1 else 0)
        = l.countP p + (if p a then 1 else 0)
  | [], i, _, _, h => by simp at h
  | c :: t, 0, a, b, h => by
      simp only [List.getElem?_cons_zero, Option.some.injEq] at h
      subst h
      simp only [List.set_cons_zero, List.countP_cons]
      omega
  | c :: t, i + 1, a, b, h => by
      simp only [List.getElem?_cons_succ] at h
      have ih := countP_set_add p t i a b h
      simp only [List.set_cons_succ, List.countP_cons]
      omega

theorem countP_pos_of_getElem? {α : Type} (p : α → Bool) (l : List α) (i : Nat) (b : α)
    (h : l[i]? = some b) (hb : p b = true) : 1 ≤ l.countP p := by
  have hm : b ∈ l := List.getElem?_mem h
  have := List.countP_pos_iff.mpr ⟨b, hm, hb⟩
  omega

/-! Branch equations of `scanStep`. -/

/-- After a crash (`UnboundLocalError` propagating / `os._exit(1)`)
no step changes the state. -/
theorem scanStep_crashed (s : ScanState) (a : Action) (h : s.crashed = true) :
    scanStep s a = s := by
  unfold scanStep
  simp [h]

/-- A probe whose gate observes `COUNT ≤ 0` crashes the run and leaves
every task (its own included) in its current phase. -/
theorem scanStep_start_exhausted (s : ScanState) (i : Nat)
    (halive : s.crashed = false) (htask : s.tasks[i]? = some .notStarted)
    (hq : s.count ≤ 0) :
    scanStep s (.start i) = { s with crashed := true } := by
  unfold scanStep
  simp [halive, htask, hq]

/-- A probe whose gate observes `COUNT > 0` goes in flight. -/
theorem scanStep_start_proceed (s : ScanState) (i : Nat)
    (halive : s.crashed = false) (htask : s.tasks[i]? = some .notStarted)
    (hq : ¬ s.count ≤ 0) :
    scanStep s (.start i) = { s with tasks := s.tasks.set i .inFlight } := by
  unfold scanStep
  simp [halive, htask, hq]

/-- An in-flight probe whose request fails returns with no effect on
the counter or the record file. -/
theorem scanStep_fail_eq (s : ScanState) (i : Nat)
    (halive : s.crashed = false) (htask : s.tasks[i]? = some .inFlight) :
    scanStep s (.fail i) = { s with tasks := s.tasks.set i .failed } := by
  unfold scanStep
  simp [halive, htask]

/-- An in-flight probe whose request succeeds runs `COUNT -= 1` and
appends its address to `good_ips.txt`. -/
theorem scanStep_succeed_eq (s : ScanState) (i : Nat)
    (halive : s.crashed = false) (htask : s.tasks[i]? = some .inFlight) :
    scanStep s (.succeed i)
      = { count := s.count - 1, tasks := s.tasks.set i .recorded, crashed := s.crashed } := by
  unfold scanStep
  simp [halive, htask]

/-- Actions that do not match the task's phase are no-ops. -/
theorem scanStep_start_noop (s : ScanState) (i : Nat)
    (halive : s.crashed = false) (htask : s.tasks[i]? ≠ some .notStarted) :
    scanStep s (.start i) = s := by
  unfold scanStep
  cases h : s.tasks[i]? with
  | none => simp [halive]
  | some st => cases st <;> simp_all

theorem scanStep_fail_noop (s : ScanState) (i : Nat)
    (halive : s.crashed = false) (htask : s.tasks[i]? ≠ some .inFlight) :
    scanStep s (.fail i) = s := by
  unfold scanStep
  cases h : s.tasks[i]? with
  | none => simp [halive]
  | some st => cases st <;> simp_all

theorem scanStep_succeed_noop (s : ScanState) (i : Nat)
    (halive : s.crashed = false) (htask : s.tasks[i]? ≠ some .inFlight) :
    scanStep s (.succeed i) = s := by
  unfold scanStep
  cases h : s.tasks[i]? with
  | none => simp [halive]
  | some st => cases st <;> simp_all

/-- `COUNT` plus the number of recorded endpoints is conserved by every
step: the counter is decremented exactly when an endpoint is recorded. -/
theorem scanStep_count_add_recorded (s : ScanState) (a : Action) :
    (scanStep s a).count + (recordedCount (scanStep s a) : Int)
      = s.count + (recordedCount s : Int) := by
  cases hc : s.crashed with
  | true => rw [scanStep_crashed s a hc]
  | false =>
    cases a with
    | start i =>
      by_cases htask : s.tasks[i]? = some .notStarted
      · by_cases hq : s.count ≤ 0
        · rw [scanStep_start_exhausted s i hc htask hq]
          rfl
        · rw [scanStep_start_proceed s i hc htask hq]
          have := countP_set_add (fun t => decide (t = TaskState.recorded))
            s.tasks i .inFlight .notStarted htask
          simp only [recordedCount]
          simp only [decide_eq_true_eq] at this
          simp at this
          omega
      · rw [scanStep_start_noop s i hc htask]
    | fail i =>
      by_cases htask : s.tasks[i]? = some .inFlight
      · rw [scanStep_fail_eq s i hc htask]
        have := countP_set_add (fun t => decide (t = TaskState.recorded))
          s.tasks i .failed .inFlight htask
        simp only [recordedCount]
        simp at this
        omega
      · rw [scanStep_fail_noop s i hc htask]
    | succeed i =>
      by_cases htask : s.tasks[i]? = some .inFlight
      · rw [scanStep_succeed_eq s i hc htask]
        have := countP_set_add (fun t => decide (t = TaskState.recorded))
          s.tasks i .recorded .inFlight htask
        simp only [recordedCount]
        simp at this
        omega
      · rw [scanStep_succeed_noop s i hc htask]

theorem scanTrace_nil (s : ScanState) : scanTrace [] s = [s] := rfl

theorem scanTrace_cons (a : Action) (acts : List Action) (s : ScanState) :
    scanTrace (a :: acts) s = s :: scanTrace acts (scanStep s a) := rfl

theorem self_mem_scanTrace (acts : List Action) (s : ScanState) :
    s ∈ scanTrace acts s := by
  cases acts with
  | nil => simp [scanTrace_nil]
  | cons a as => simp [scanTrace_cons]

/-- Along any schedule, `COUNT + recordedCount` keeps its initial value. -/
theorem scanTrace_count_add_recorded (acts : List Action) (s : ScanState) :
    ∀ t ∈ scanTrace acts s,
      t.count + (recordedCount t : Int) = s.count + (recordedCount s : Int) := by
  induction acts generalizing s with
  | nil => intro t ht; rw [scanTrace_nil] at ht; simp at ht; rw [ht]
  | cons a as ih =>
    intro t ht
    rw [scanTrace_cons] at ht
    rcases List.mem_cons.mp ht with h | h
    · rw [h]
    · have := ih (scanStep s a) t h
      rw [this, scanStep_count_add_recorded]

/-- Step preservation of the invariant `inFlightCount ≤ COUNT`, under
the assumption that the post-state keeps at most one probe in flight. -/
theorem scanStep_inFlight_le_count (s : ScanState) (a : Action)
    (hinv : (inFlightCount s : Int) ≤ s.count)
    (hpost : inFlightCount (scanStep s a) ≤ 1) :
    (inFlightCount (scanStep s a) : Int) ≤ (scanStep s a).count := by
  cases hc : s.crashed with
  | true => rw [scanStep_crashed s a hc] at hpost ⊢; exact hinv
  | false =>
    cases a with
    | start i =>
      by_cases htask : s.tasks[i]? = some .notStarted
      · by_cases hq : s.count ≤ 0
        · rw [scanStep_start_exhausted s i hc htask hq] at hpost ⊢
          exact hinv
        · rw [scanStep_start_proceed s i hc htask hq] at hpost ⊢
          simp only [inFlightCount] at hpost ⊢
          omega
      · rw [scanStep_start_noop s i hc htask]
        exact hinv
    | fail i =>
      by_cases htask : s.tasks[i]? = some .inFlight
      · rw [scanStep_fail_eq s i hc htask] at hpost ⊢
        have := countP_set_add (fun t => decide (t = TaskState.inFlight))
          s.tasks i .failed .inFlight htask
        simp only [inFlightCount] at hinv ⊢
        simp at this
        omega
      · rw [scanStep_fail_noop s i hc htask]
        exact hinv
    | succeed i =>
      by_cases htask : s.tasks[i]? = some .inFlight
      · rw [scanStep_succeed_eq s i hc htask] at hpost ⊢
        have := countP_set_add (fun t => decide (t = TaskState.inFlight))
          s.tasks i .recorded .inFlight htask
        simp only [inFlightCount] at hinv ⊢
        simp at this
        omega
      · rw [scanStep_succeed_noop s i hc htask]
        exact hinv

/-- If every state of the run keeps at most one probe in flight
(probes do not overlap), the counter never becomes negative. -/
theorem scanTrace_nonneg (acts : List Action) (s : ScanState)
    (hinv : (inFlightCount s : Int) ≤ s.count)
    (hseq : ∀ t ∈ scanTrace acts s, inFlightCount t ≤ 1) :
    ∀ t ∈ scanTrace acts s, 0 ≤ t.count := by
  induction acts generalizing s with
  | nil =>
    intro t ht; rw [scanTrace_nil] at ht; simp at ht; subst ht
    omega
  | cons a as ih =>
    intro t ht
    rw [scanTrace_cons] at ht
    rcases List.mem_cons.mp ht with h | h
    · subst h
      omega
    · have hpost : inFlightCount (scanStep s a) ≤ 1 := by
        apply hseq
        rw [scanTrace_cons]
        exact List.mem_cons_of_mem _ (self_mem_scanTrace as (scanStep s a))
      have hseq' : ∀ t ∈ scanTrace as (scanStep s a), inFlightCount t ≤ 1 := by
        intro u hu
        apply hseq
        rw [scanTrace_cons]
        exact List.mem_cons_of_mem _ hu
      exact ih (scanStep s a) (scanStep_inFlight_le_count s a hinv hpost) hseq' t h

theorem crashed_stuck (s : ScanState) (h : s.crashed = true) : Stuck s := by
  intro acts
  induction acts with
  | nil => rfl
  | cons a as ih =>
    show List.foldl scanStep s (a :: as) = s
    rw [List.foldl_cons, scanStep_crashed s a h]
    exact ih

/-! ### Claims C1, C2, C6 -/

/-- **C1**, as stated, is false: `check` re-reads `COUNT` only at its
gate, before the awaited HTTP request, and `COUNT -= 1` is not guarded,
so two probes that are concurrently in flight with `COUNT = 1` both
decrement.  Concrete run: quota 1, two probes, both pass the gate,
both succeed; the counter ends at `-1 < 0`. -/
theorem claim1_counterexample :
    (initScan 1 2).count = 1 ∧
    (runScan [.start 0, .start 1, .succeed 0, .succeed 1] (initScan 1 2)).count = -1 := by
  constructor
  · rfl
  · decide

/-- **C1** (amended).  The quota counter starts at the caller-supplied
positive count and is decremented exactly once per successful probe, so
along every schedule `COUNT + recordedCount` equals the initial quota;
under concurrently completing probes the counter can go negative (see
the counterexample), but if no two probes are ever simultaneously in
flight it never becomes negative; and in every reachable state where
the counter is `≤ 0`, a probe that starts crashes the run (the
`COUNT <= 0` branch of `check`) without being scheduled in flight, so
no further probes run. -/
theorem claim1_quota_amended (q : Int) (n : Nat) (acts : List Action) (i : Nat)
    (hq : 0 < q) :
    (∀ t ∈ scanTrace acts (initScan q n), t.count + (recordedCount t : Int) = q) ∧
    ((∀ t ∈ scanTrace acts (initScan q n), inFlightCount t ≤ 1) →
      ∀ t ∈ scanTrace acts (initScan q n), 0 ≤ t.count) ∧
    (∀ t ∈ scanTrace acts (initScan q n),
      t.crashed = false → t.tasks[i]? = some .notStarted → t.count ≤ 0 →
        (scanStep t (.start i)).crashed = true ∧ (scanStep t (.start i)).tasks = t.tasks) := by
  have hrec0 : recordedCount (initScan q n) = 0 := by
    simp [recordedCount, initScan, List.countP_eq_zero]
  have hifl0 : inFlightCount (initScan q n) = 0 := by
    simp [inFlightCount, initScan, List.countP_eq_zero]
  refine ⟨?_, ?_, ?_⟩
  · intro t ht
    have := scanTrace_count_add_recorded acts (initScan q n) t ht
    rw [this, hrec0]
    simp [initScan]
  · intro hseq
    apply scanTrace_nonneg acts (initScan q n) ?_ hseq
    rw [hifl0]
    simpa [initScan] using le_of_lt hq
  · intro t _ halive htask hcnt
    rw [scanStep_start_exhausted t i halive htask hcnt]
    exact ⟨rfl, rfl⟩

theorem claim1_quota_amended_witness :
    (0 : Int) < 5 ∧
    ((∀ t ∈ scanTrace [.start 0, .succeed 0] (initScan 5 3),
        t.count + (recordedCount t : Int) = 5) ∧
     ((∀ t ∈ scanTrace [.start 0, .succeed 0] (initScan 5 3), inFlightCount t ≤ 1) →
        ∀ t ∈ scanTrace [.start 0, .succeed 0] (initScan 5 3), 0 ≤ t.count) ∧
     (∀ t ∈ scanTrace [.start 0, .succeed 0] (initScan 5 3),
        t.crashed = false → t.tasks[1]? = some .notStarted → t.count ≤ 0 →
          (scanStep t (.start 1)).crashed = true ∧ (scanStep t (.start 1)).tasks = t.tasks)) :=
  ⟨by decide, claim1_quota_amended 5 3 [.start 0, .succeed 0] 1 (by decide)⟩

/-- **C2**, as stated, is false: with quota 1 and two concurrently
completing successful probes, both append their address to
`good_ips.txt`, so 2 endpoints are recorded against a quota of 1. -/
theorem claim2_counterexample :
    (initScan 1 2).count = 1 ∧
    recordedCount (runScan [.start 0, .start 1, .succeed 0, .succeed 1] (initScan 1 2)) = 2 := by
  constructor
  · rfl
  · decide

/-- **C2** (amended).  The number of endpoints recorded in
`good_ips.txt` always equals the initial quota minus the current value
of `COUNT`; it can exceed the quota when several probes complete
concurrently (see the counterexample), but never exceeds the quota on
schedules where no two probes are simultaneously in flight; and a probe
that starts after the counter has reached zero never records: its gate
crashes the run with its task still unscheduled. -/
theorem claim2_records_amended (q : Int) (n : Nat) (acts : List Action) (i : Nat)
    (hq : 0 < q) :
    (∀ t ∈ scanTrace acts (initScan q n), (recordedCount t : Int) = q - t.count) ∧
    ((∀ t ∈ scanTrace acts (initScan q n), inFlightCount t ≤ 1) →
      ∀ t ∈ scanTrace acts (initScan q n), (recordedCount t : Int) ≤ q) ∧
    (∀ t ∈ scanTrace acts (initScan q n),
      t.crashed = false → t.tasks[i]? = some .notStarted → t.count ≤ 0 →
        recordedCount (scanStep t (.start i)) = recordedCount t ∧
        (scanStep t (.start i)).crashed = true) := by
  have hrec0 : recordedCount (initScan q n) = 0 := by
    simp [recordedCount, initScan, List.countP_eq_zero]
  have hifl0 : inFlightCount (initScan q n) = 0 := by
    simp [inFlightCount, initScan, List.countP_eq_zero]
  have hconsv : ∀ t ∈ scanTrace acts (initScan q n),
      t.count + (recordedCount t : Int) = q := by
    intro t ht
    have := scanTrace_count_add_recorded acts (initScan q n) t ht
    rw [this, hrec0]
    simp [initScan]
  refine ⟨?_, ?_, ?_⟩
  · intro t ht
    have := hconsv t ht
    omega
  · intro hseq t ht
    have h1 := hconsv t ht
    have h2 := scanTrace_nonneg acts (initScan q n) ?_ hseq t ht
    · omega
    · rw [hifl0]
      simpa [initScan] using le_of_lt hq
  · intro t _ halive htask hcnt
    rw [scanStep_start_exhausted t i halive htask hcnt]
    exact ⟨rfl, rfl⟩

theorem claim2_records_amended_witness :
    (0 : Int) < 2 ∧
    ((∀ t ∈ scanTrace [.start 0, .succeed 0] (initScan 2 2),
        (recordedCount t : Int) = 2 - t.count) ∧
     ((∀ t ∈ scanTrace [.start 0, .succeed 0] (initScan 2 2), inFlightCount t ≤ 1) →
        ∀ t ∈ scanTrace [.start 0, .succeed 0] (initScan 2 2), (recordedCount t : Int) ≤ 2) ∧
     (∀ t ∈ scanTrace [.start 0, .succeed 0] (initScan 2 2),
        t.crashed = false → t.tasks[1]? = some .notStarted → t.count ≤ 0 →
          recordedCount (scanStep t (.start 1)) = recordedCount t ∧
          (scanStep t (.start 1)).crashed = true)) :=
  ⟨by decide, claim2_records_amended 2 2 [.start 0, .succeed 0] 1 (by decide)⟩

/-- **C6**, as stated, is false: once the quota reaches zero, the next
probe to start executes `f.close(); os._exit(1)`, which aborts the
whole run (`UnboundLocalError`, or the intended immediate process
exit), so probes still in flight never complete.  Concrete run: quota
1, probes 0 and 1 both in flight, probe 0 succeeds driving `COUNT` to
0, then probe 2 starts: the run is crashed, probe 1 is still in flight,
and no continuation schedule ever changes the state again. -/
theorem claim6_counterexample :
    (runScan [.start 0, .start 1, .succeed 0, .start 2] (initScan 1 3)).count = 0 ∧
    (runScan [.start 0, .start 1, .succeed 0, .start 2] (initScan 1 3)).crashed = true ∧
    (runScan [.start 0, .start 1, .succeed 0, .start 2] (initScan 1 3)).tasks[1]?
      = some .inFlight ∧
    Stuck (runScan [.start 0, .start 1, .succeed 0, .start 2] (initScan 1 3)) :=
  ⟨by decide, by decide, by decide,
    crashed_stuck (runScan [.start 0, .start 1, .succeed 0, .start 2] (initScan 1 3))
      (by decide)⟩

/-- **C6** (amended).  Once the quota controller is at zero (or
below), the next probe to pass its gate crashes the run rather than
short-circuiting quietly: the crashed state is absorbing, so nothing —
in-flight probes included — makes any further progress. -/
theorem claim6_cancellation_amended (s : ScanState) (i : Nat)
    (halive : s.crashed = false) (htask : s.tasks[i]? = some .notStarted)
    (hq : s.count ≤ 0) :
    (scanStep s (.start i)).crashed = true ∧ Stuck (scanStep s (.start i)) := by
  rw [scanStep_start_exhausted s i halive htask hq]
  exact ⟨rfl, crashed_stuck _ rfl⟩

theorem claim6_cancellation_amended_witness :
    (initScan 0 1).crashed = false ∧ (initScan 0 1).tasks[0]? = some .notStarted ∧
    (initScan 0 1).count ≤ 0 ∧
    ((scanStep (initScan 0 1) (.start 0)).crashed = true ∧
      Stuck (scanStep (initScan 0 1) (.start 0))) :=
  ⟨by decide, by decide, by decide,
    claim6_cancellation_amended (initScan 0 1) 0 (by decide) (by decide) (by decide)⟩

/-! ### Range-expander lemmas -/

theorem parseOctet_le (s : List Char) (v : Nat) (h : parseOctet s = some v) : v ≤ 255 := by
  unfold parseOctet at h
  split at h
  · split at h
    · rename_i hle
      injection h with h
      omega
    · cases h
  · cases h

theorem parseQuad_lt : ∀ (ps : List (List Char)) (b : Nat),
    parseQuad ps = some b → b < 2 ^ 32
  | [q₁, q₂, q₃, q₄], b, h => by
      simp only [parseQuad] at h
      obtain ⟨v₁, h₁, h⟩ := Option.bind_eq_some.mp h
      obtain ⟨v₂, h₂, h⟩ := Option.bind_eq_some.mp h
      obtain ⟨v₃, h₃, h⟩ := Option.bind_eq_some.mp h
      obtain ⟨v₄, h₄, h⟩ := Option.bind_eq_some.mp h
      injection h with h
      have b₁ := parseOctet_le q₁ v₁ h₁
      have b₂ := parseOctet_le q₂ v₂ h₂
      have b₃ := parseOctet_le q₃ v₃ h₃
      have b₄ := parseOctet_le q₄ v₄ h₄
      omega
  | [], b, h => by simp [parseQuad] at h
  | [_], b, h => by simp [parseQuad] at h
  | [_, _], b, h => by simp [parseQuad] at h
  | [_, _, _], b, h => by simp [parseQuad] at h
  | _ :: _ :: _ :: _ :: _ :: _, b, h => by simp [parseQuad] at h

theorem parseIPv4_lt (s : List Char) (b : Nat) (h : parseIPv4 s = some b) : b < 2 ^ 32 :=
  parseQuad_lt (splitOnChar '.' s) b h

theorem parsePrefixLen_le (s : List Char) (p : Nat) (h : parsePrefixLen s = some p) :
    p ≤ 32 := by
  unfold parsePrefixLen at h
  split at h
  · split at h
    · rename_i hle
      injection h with h
      omega
    · cases h
  · cases h

theorem parseNetworkParts_wf : ∀ (ps : List (List Char)) (n : Network),
    parseNetworkParts ps = .ok n →
    n.base < 2 ^ 32 ∧ n.plen ≤ 32 ∧ n.base % 2 ^ (32 - n.plen) = 0
  | [addr], n, h => by
      simp only [parseNetworkParts] at h
      cases hb : parseIPv4 addr with
      | none => simp [hb] at h
      | some b =>
        rw [hb] at h
        injection h with h
        subst h
        exact ⟨parseIPv4_lt addr b hb, Nat.le_refl 32, Nat.mod_one b⟩
  | [addr, pl], n, h => by
      simp only [parseNetworkParts] at h
      cases hb : parseIPv4 addr with
      | none =>
        cases hp : parsePrefixLen pl with
        | none => simp [hb, hp] at h
        | some p => simp [hb, hp] at h
      | some b =>
        cases hp : parsePrefixLen pl with
        | none => simp [hb, hp] at h
        | some p =>
          simp only [hb, hp] at h
          split at h
          · rename_i hmod
            injection h with h
            subst h
            exact ⟨parseIPv4_lt addr b hb, parsePrefixLen_le pl p hp, hmod⟩
          · cases h
  | [], n, h => by simp [parseNetworkParts] at h
  | _ :: _ :: _ :: _, n, h => by simp [parseNetworkParts] at h

/-- Every network returned by `parseNetwork` is well formed: 32-bit
base, prefix length at most 32, host bits zero. -/
theorem parseNetwork_wf (spec : List Char) (n : Network) (h : parseNetwork spec = .ok n) :
    n.base < 2 ^ 32 ∧ n.plen ≤ 32 ∧ n.base % 2 ^ (32 - n.plen) = 0 :=
  parseNetworkParts_wf (splitOnChar '/' spec) n h

theorem enumerate_chain (n : Network) : List.Chain' (· < ·) n.enumerate := by
  unfold Network.enumerate
  apply List.Pairwise.chain'
  exact (List.pairwise_lt_range n.size).map _ (fun a b hab => by omega)

theorem enumerate_nodup (n : Network) : n.enumerate.Nodup := by
  unfold Network.enumerate
  exact (List.pairwise_lt_range n.size).map _ (fun a b hab => by omega)

theorem mem_enumerate (n : Network) (a : Nat) :
    a ∈ n.enumerate ↔ n.base ≤ a ∧ a < n.base + n.size := by
  unfold Network.enumerate
  simp only [List.mem_map, List.mem_range]
  constructor
  · rintro ⟨i, hi, rfl⟩
    omega
  · rintro ⟨h1, h2⟩
    exact ⟨a - n.base, by omega, by omega⟩

/-- On well-formed networks, prefix-bits membership coincides with the
half-open interval `[base, base + size)`. -/
theorem contains_iff_interval (n : Network)
    (hb : n.base < 2 ^ 32) (hp : n.plen ≤ 32) (hm : n.base % 2 ^ (32 - n.plen) = 0)
    (a : Nat) :
    n.contains a ↔ n.base ≤ a ∧ a < n.base + n.size := by
  unfold Network.contains Network.size at *
  obtain ⟨m, hmm⟩ := Nat.dvd_of_mod_eq_zero hm
  have hk : 0 < 2 ^ (32 - n.plen) := Nat.pos_pow_of_pos _ (by omega)
  have hbdiv : n.base / 2 ^ (32 - n.plen) = m := by
    rw [hmm]
    exact Nat.mul_div_cancel_left m hk
  constructor
  · rintro ⟨ha32, hdiv⟩
    have hsplit := Nat.div_add_mod a (2 ^ (32 - n.plen))
    have hmlt : a % 2 ^ (32 - n.plen) < 2 ^ (32 - n.plen) := Nat.mod_lt _ hk
    rw [hdiv, hbdiv] at hsplit
    omega
  · rintro ⟨h1, h2⟩
    have hr : a - n.base < 2 ^ (32 - n.plen) := by omega
    have ha : a = 2 ^ (32 - n.plen) * m + (a - n.base) := by omega
    have hadiv : a / 2 ^ (32 - n.plen) = m := by
      rw [ha, Nat.mul_add_div hk, Nat.div_eq_of_lt hr]
      omega
    constructor
    · have hk32 : 2 ^ (32 - n.plen) ∣ 2 ^ 32 := pow_dvd_pow 2 (by omega)
      obtain ⟨M, hM⟩ := hk32
      have hmM : m < M := by
        by_contra hcon
        push_neg at hcon
        have := Nat.mul_le_mul_left (2 ^ (32 - n.plen)) hcon
        omega
      have hfin : 2 ^ (32 - n.plen) * (m + 1) ≤ 2 ^ (32 - n.plen) * M :=
        Nat.mul_le_mul_left _ (by omega)
      have hexp : 2 ^ (32 - n.plen) * (m + 1)
          = 2 ^ (32 - n.plen) * m + 2 ^ (32 - n.plen) := by ring
      omega
    · rw [hadiv, hbdiv]

/-! ### Claims C4, C5 -/

/-- **C4**, as stated, is false: `select` wraps no `try` around
`ipaddress.ip_network`, so the `ValueError` raised by the malformed
line `999.1.1.1/40` propagates through `asyncio.gather` and aborts the
run instead of being reported and skipped; here the third, valid line
is never processed even though it parses. -/
theorem claim4_counterexample :
    runRanges ["1.0.0.0/30".toList, "999.1.1.1/40".toList, "2.0.0.0/31".toList]
      = .error .invalidRange ∧
    parseNetwork "2.0.0.0/31".toList = .ok ⟨33554432, 31⟩ :=
  ⟨by decide, by decide⟩

/-- **C4** (amended).  A range specification that does not parse as an
address or CIDR block raises `ValueError` (`InvalidRange`) inside
`select`, which does not catch it; the error is fatal to the run: the
whole batch evaluates to that error, and the lines after the malformed
one are never processed.  Only lines handled before it are expanded. -/
theorem claim4_invalid_fatal (pre post : List (List Char)) (bad : List Char)
    (hpre : ∀ s ∈ pre, ∃ v, parseNetwork s = .ok v)
    (hbad : parseNetwork bad = .error .invalidRange) :
    runRanges (pre ++ bad :: post) = .error .invalidRange := by
  induction pre with
  | nil =>
    have hsel : select bad = .error .invalidRange := by
      simp [select, hbad, Except.map]
    simp [runRanges, hsel]
  | cons s rest ih =>
    obtain ⟨v, hv⟩ := hpre s (List.mem_cons_self s rest)
    have hsel : select s = .ok v.enumerate := by
      simp [select, hv, Except.map]
    have ih' := ih (fun u hu => hpre u (List.mem_cons_of_mem s hu))
    simp [runRanges, hsel, ih']

theorem claim4_invalid_fatal_witness :
    (∀ s ∈ ["1.0.0.0/30".toList], ∃ v, parseNetwork s = .ok v) ∧
    parseNetwork "999.1.1.1/40".toList = .error .invalidRange ∧
    runRanges (["1.0.0.0/30".toList] ++ "999.1.1.1/40".toList :: ["2.0.0.0/31".toList])
      = .error .invalidRange := by
  refine ⟨?_, by decide, ?_⟩
  · intro s hs
    simp only [List.mem_singleton] at hs
    subst hs
    exact ⟨⟨16777216, 30⟩, by decide⟩
  · exact claim4_invalid_fatal ["1.0.0.0/30".toList] ["2.0.0.0/31".toList]
      "999.1.1.1/40".toList
      (fun s hs => by
        simp only [List.mem_singleton] at hs
        subst hs
        exact ⟨⟨16777216, 30⟩, by decide⟩)
      (by decide)

/-- **C5**.  For every specification accepted by
`ipaddress.ip_network`, the addresses dispatched by `select` are
exactly the addresses of that CIDR — those 32-bit addresses whose
prefix bits agree with the network's — in strictly ascending order,
with no duplicates and no omissions. -/
theorem claim5_range_enumeration (spec : List Char) (n : Network)
    (h : parseNetwork spec = .ok n) :
    select spec = .ok n.enumerate ∧
    List.Chain' (· < ·) n.enumerate ∧ n.enumerate.Nodup ∧
    ∀ a : Nat, a ∈ n.enumerate ↔ n.contains a := by
  obtain ⟨hb, hp, hm⟩ := parseNetwork_wf spec n h
  refine ⟨by simp [select, h, Except.map], enumerate_chain n, enumerate_nodup n, fun a => ?_⟩
  rw [mem_enumerate, contains_iff_interval n hb hp hm]

theorem claim5_range_enumeration_witness :
    parseNetwork "203.0.113.0/30".toList = .ok ⟨3405803776, 30⟩ ∧
    (select "203.0.113.0/30".toList = .ok (Network.enumerate ⟨3405803776, 30⟩) ∧
     List.Chain' (· < ·) (Network.enumerate ⟨3405803776, 30⟩) ∧
     (Network.enumerate ⟨3405803776, 30⟩).Nodup ∧
     ∀ a : Nat, a ∈ Network.enumerate ⟨3405803776, 30⟩ ↔
       Network.contains ⟨3405803776, 30⟩ a) :=
  ⟨by decide, claim5_range_enumeration "203.0.113.0/30".toList ⟨3405803776, 30⟩ (by decide)⟩

/-! ### Claim C3 -/

/-- **C3**.  `get_working_worker` returns the first candidate (after
stripping) whose liveness GET neither raises nor answers HTTP 429; in
the spec's scenario — `a.example` answers 429, `b.example` answers 200
— the resolved target is `b.example`. -/
theorem claim3_target_resolver (liveness : List Char → LivenessResult)
    (urls : List (List Char)) :
    get_working_worker liveness urls
      = (urls.map stripChars).find? (fun u => acceptsWorker (liveness u)) ∧
    get_working_worker scenarioLiveness [aExample, bExample] = some bExample := by
  constructor
  · induction urls with
    | nil => rfl
    | cons url rest ih =>
      simp only [get_working_worker, List.map_cons, List.find?_cons]
      cases hl : liveness (stripChars url) with
      | status code =>
        by_cases hc : code = 429
        · subst hc
          simp [acceptsWorker, hl, ih]
        · simp [acceptsWorker, hl, hc]
      | netError => simp [acceptsWorker, hl, ih]
  · decide

/-! ### Claim C7 -/

/-- **C7**.  On the success path (HTTP 200) and positive elapsed time,
both measured speeds equal the spec's formula
`(bytes_transferred * 8) / (elapsed_seconds * 1_000_000)` Mbps rounded
to two decimals — for the download test with `bytes_transferred` the
bytes accumulated by the chunk loop, for the upload test with the full
uploaded payload size. -/
theorem claim7_throughput (chunks : List Nat) (size uploadSize : Nat) (tD tU : ℚ)
    (hD : 0 < tD) (hU : 0 < tU) :
    measure_download_speed 200 chunks size tD
      = specSpeedMbps (downloadLoop size chunks 0) tD ∧
    measure_upload_speed 200 uploadSize tU = specSpeedMbps uploadSize tU := by
  constructor
  · simp [measure_download_speed, specSpeedMbps]
  · simp [measure_upload_speed, specSpeedMbps]

theorem claim7_throughput_witness :
    (0 : ℚ) < 1 ∧ (0 : ℚ) < 2 ∧
    (measure_download_speed 200 [1024, 1024] 1500 1
        = specSpeedMbps (downloadLoop 1500 [1024, 1024] 0) 1 ∧
     measure_upload_speed 200 5242880 2 = specSpeedMbps 5242880 2) :=
  ⟨by norm_num, by norm_num,
    claim7_throughput [1024, 1024] 1500 5242880 1 2 (by norm_num) (by norm_num)⟩

/-! ### Claim C8 -/

/-- **C8**.  Importing `Cfsc.py` fails: the class body of `fronting`
evaluates the default argument `family=socket.AF_INET` at definition
time, and `socket` is not among the names bound by the module's
imports and constants, so the load raises `NameError` for `socket`
before any probing can occur. -/
theorem claim8_import_name_error :
    loadCfsc = .error (.nameError "socket") := by decide

/-! ### Claim C9 -/

/-- **C9**.  When `check` observes `COUNT <= 0`, the branch evaluates
`f.close()` with the local `f` still unbound (it is assigned only at
line 70), so the branch raises `UnboundLocalError` — a `NameError` —
and the intended `os._exit(1)` on line 54 is never reached. -/
theorem claim9_gate_unbound (count : Int) (h : count ≤ 0) :
    checkGate count = some (.raisedUnboundLocal "f") ∧
    ∀ code, checkGate count ≠ some (.exited code) := by
  have hbody : execGate checkLocalsAtGate quotaExhaustedBody
      = GateResult.raisedUnboundLocal "f" := by decide
  constructor
  · simp [checkGate, h, hbody]
  · intro code
    simp [checkGate, h, hbody]

theorem claim9_gate_unbound_witness :
    (0 : Int) ≤ 0 ∧
    (checkGate 0 = some (.raisedUnboundLocal "f") ∧
     ∀ code, checkGate 0 ≠ some (.exited code)) :=
  ⟨by decide, claim9_gate_unbound 0 (by decide)⟩

/-! ### Claim C10 -/

/-- **C10**.  The rows returned by `test_proxies` (the rows the CSV
report is written from) are exactly the `check_proxy` results of input
proxies whose measured download or upload speed is strictly positive;
proxies that fail connectivity or both speed tests are absent. -/
theorem claim10_filter (env : List Char → ProxyEnv) (proxies : List (List Char))
    (results : List ProxyResult) (h : test_proxies env proxies = some results)
    (r : ProxyResult) :
    r ∈ results ↔
      ∃ p ∈ proxies, check_proxy (env p) p = some r ∧
        (0 < r.download ∨ 0 < r.upload) := by
  induction proxies generalizing results with
  | nil =>
    simp only [test_proxies, Option.some.injEq] at h
    subst h
    simp
  | cons p rest ih =>
    simp only [test_proxies] at h
    cases hc : check_proxy (env p) p with
    | none => simp [hc] at h
    | some r' =>
      cases ht : test_proxies env rest with
      | none => simp [hc, ht] at h
      | some out =>
        simp only [hc, ht, Option.some.injEq] at h
        subst h
        have ihr := ih out ht
        by_cases hcond : 0 < r'.download ∨ 0 < r'.upload
        · rw [if_pos hcond]
          simp only [List.mem_cons]
          constructor
          · rintro (rfl | hmem)
            · exact ⟨p, Or.inl rfl, hc, hcond⟩
            · obtain ⟨q, hq, hcq, hcondq⟩ := ihr.mp hmem
              exact ⟨q, Or.inr hq, hcq, hcondq⟩
          · rintro ⟨q, rfl | hq', hcq, hcondq⟩
            · left
              rw [hc] at hcq
              injection hcq with hcq
              exact hcq.symm
            · right
              exact ihr.mpr ⟨q, hq', hcq, hcondq⟩
        · rw [if_neg hcond]
          constructor
          · intro hmem
            obtain ⟨q, hq, hcq, hcondq⟩ := ihr.mp hmem
            exact ⟨q, List.mem_cons_of_mem p hq, hcq, hcondq⟩
          · rintro ⟨q, hq, hcq, hcondq⟩
            rcases List.mem_cons.mp hq with rfl | hq'
            · rw [hc] at hcq
              injection hcq with hcq
              subst hcq
              exact absurd hcondq hcond
            · exact ihr.mpr ⟨q, hq', hcq, hcondq⟩

theorem claim10_filter_witness :
    test_proxies (fun _ => ⟨true, 5, 0⟩) ["1.2.3.4:80".toList]
        = some [⟨"1.2.3.4".toList, "80".toList, 5, 0⟩] ∧
    ((⟨"1.2.3.4".toList, "80".toList, 5, 0⟩ : ProxyResult)
        ∈ [(⟨"1.2.3.4".toList, "80".toList, 5, 0⟩ : ProxyResult)] ↔
      ∃ p ∈ ["1.2.3.4:80".toList],
        check_proxy ((fun _ => (⟨true, 5, 0⟩ : ProxyEnv)) p) p
            = some ⟨"1.2.3.4".toList, "80".toList, 5, 0⟩ ∧
          (0 < (⟨"1.2.3.4".toList, "80".toList, 5, 0⟩ : ProxyResult).download ∨
           0 < (⟨"1.2.3.4".toList, "80".toList, 5, 0⟩ : ProxyResult).upload)) :=
  ⟨by decide,
    claim10_filter (fun _ => ⟨true, 5, 0⟩) ["1.2.3.4:80".toList]
      [⟨"1.2.3.4".toList, "80".toList, 5, 0⟩] (by decide)
      ⟨"1.2.3.4".toList, "80".toList, 5, 0⟩⟩

end CfRenew
